import Mathlib

/-!
Verification of the authenticated request construction and response
processing pipeline of the Backend.AI Javascript client
(`src/backend.ai-client.js`), shallowly embedded in Lean.

Machine strings are modelled as Lean `String` (JS strings are sequences of
code units; the strings handled here are plain ASCII, where the two notions
coincide).  Byte buffers are `List Nat`.  The cryptographic primitives of
`node:crypto` (the configured hash and HMAC) and the UTF-8 encoder of
`Buffer` are abstract parameters collected in a `Crypto` structure: the
pipeline treats them as black boxes, and every theorem below holds for an
arbitrary instantiation (collision-freeness is an explicit hypothesis where
a claim needs it).
-/

namespace BackendAI

/-- Byte buffers (Node `Buffer` contents). -/
abbrev Bytes : Type := List Nat

/-- Abstract model of the `node:crypto` primitives and `Buffer` UTF-8
encoding used by the client: `hashDigest ty data` is
`crypto.createHash(ty).update(data).digest()`, `hmacDigest ty key msg` is
`crypto.createHmac(ty, key).update(msg).digest()`, and `utf8 s` is
`Buffer.from(s, 'utf8')`. -/
structure Crypto where
  hashDigest : String → Bytes → Bytes
  hmacDigest : String → Bytes → Bytes → Bytes
  utf8 : String → Bytes

/-- Lowercase hex digit of `n` (`0..15`). -/
def hexDigit (n : Nat) : Char :=
  if n < 10 then Char.ofNat (48 + n) else Char.ofNat (87 + n)

/-- Node's `'hex'` digest rendering: each byte as two lowercase hex digits. -/
def hexOfBytes (b : Bytes) : String :=
  String.mk (List.foldr (fun x acc => hexDigit (x / 16 % 16) :: hexDigit (x % 16) :: acc) [] b)

/-- JS `s.startsWith(p)`. -/
def jsStartsWith (s p : String) : Bool := p.data.isPrefixOf s.data

/-- JS `s.slice(-n)` for `n ≤ s.length`: the last `n` code units. -/
def sliceLast (s : String) (n : Nat) : String :=
  String.mk (s.data.drop (s.data.length - n))

/-- The scheme-stripping regex replace of the `ClientConfig` constructor:
`endpoint.replace(/^[^:]+:\/\//, '')`.  The regex matches a nonempty
colon-free prefix followed by the literal `://`; when it matches, the match
is removed, otherwise the string is unchanged. -/
def stripScheme (s : String) : String :=
  match s.splitOn "://" with
  | [] => s
  | [_] => s
  | pre :: rest =>
    if pre.isEmpty ∨ pre.contains ':' then s else String.intercalate "://" rest

/-- The credential store (`ClientConfig`): endpoint, derived endpoint host,
access key, secret key, hash algorithm, fixed major version, full protocol
version string and connection mode.  (`_proxyURL`, always `null` here, is
omitted.) -/
structure ClientConfig where
  endpoint : String
  endpointHost : String
  accessKey : String
  secretKey : String
  hashType : String
  apiVersionMajor : String
  apiVersion : String
  connectionMode : String
deriving DecidableEq

/-- The `ClientConfig` constructor.  `accessKey`/`secretKey` equal to
`undefined`/`null` are modelled as `none` and raise the construction-time
error; a missing endpoint defaults to the well-known public endpoint. -/
def ClientConfig.make (accessKey : Option String) (secretKey : Option String)
    (endpoint : Option String) (connectionMode : String) : Except String ClientConfig :=
  match accessKey with
  | none => Except.error "You must set accessKey! (either as argument or environment variable)"
  | some ak =>
    match secretKey with
    | none => Except.error "You must set secretKey! (either as argument or environment variable)"
    | some sk =>
      let ep := endpoint.getD "https://api.backend.ai"
      Except.ok
        { endpoint := ep
          endpointHost := stripScheme ep
          accessKey := ak
          secretKey := sk
          hashType := "sha256"
          apiVersionMajor := "v4"
          apiVersion := "v4.20190315"
          connectionMode := connectionMode }

/-- A JS `Date`, reduced to the fields the client reads: the UTC calendar
fields (`getUTCFullYear`, the 0-based `getUTCMonth`, `getUTCDate`) and the
`toISOString()` rendering. -/
structure JsDate where
  utcFullYear : Nat
  utcMonth : Nat
  utcDate : Nat
  isoString : String
deriving DecidableEq

namespace Client

/-- `Client.ERR_SERVER` static constant. -/
def ERR_SERVER : Nat := 0
/-- `Client.ERR_RESPONSE` static constant. -/
def ERR_RESPONSE : Nat := 1
/-- `Client.ERR_REQUEST` static constant. -/
def ERR_REQUEST : Nat := 2

/-- `Client.getCurrentDate(now)`: the UTC date of `now` rendered as
`YYYYMMDD` by zero-padding and `slice`. -/
def getCurrentDate (now : JsDate) : String :=
  let year := sliceLast ("0000" ++ toString now.utcFullYear) 4
  let month := sliceLast ("0" ++ toString (now.utcMonth + 1)) 2
  let day := sliceLast ("0" ++ toString now.utcDate) 2
  year ++ month ++ day

/-- The key argument of `Client.sign`: a string with `'utf8'` key encoding,
or a raw buffer with `'binary'` key encoding. -/
inductive BufSrc where
  | ofString (s : String)
  | ofBytes (b : Bytes)

/-- `Client.sign(key, key_encoding, msg, digest_type)`: HMAC under the
configured hash type, the key decoded per its encoding, the message taken
as UTF-8.  The digest is returned as raw bytes; call sites rendering with
`digest_type === 'hex'` apply `hexOfBytes` to the result. -/
def sign (C : Crypto) (cfg : ClientConfig) (key : BufSrc) (msg : String) : Bytes :=
  let kbuf := match key with
    | BufSrc.ofString s => C.utf8 s
    | BufSrc.ofBytes b => b
  C.hmacDigest cfg.hashType kbuf (C.utf8 msg)

/-- `Client.getSignKey(secret_key, now)`: the daily signing key
`HMAC(HMAC(secret, YYYYMMDD), endpointHost)`. -/
def getSignKey (C : Crypto) (cfg : ClientConfig) (secret_key : String) (now : JsDate) : Bytes :=
  let k1 := sign C cfg (BufSrc.ofString secret_key) (getCurrentDate now)
  sign C cfg (BufSrc.ofBytes k1) cfg.endpointHost

/-- The hex digest of `bodyValue` under the configured hash algorithm, as
computed at the top of `Client.getAuthenticationString`. -/
def bodyHashHex (C : Crypto) (cfg : ClientConfig) (bodyValue : String) : String :=
  hexOfBytes (C.hashDigest cfg.hashType (C.utf8 bodyValue))

/-- `Client.getAuthenticationString(method, queryString, dateValue,
bodyValue, content_type)`: the canonical request string that gets signed. -/
def getAuthenticationString (C : Crypto) (cfg : ClientConfig)
    (method queryString dateValue bodyValue content_type : String) : String :=
  method ++ "\n" ++ queryString ++ "\n" ++ dateValue ++ "\n"
    ++ "host:" ++ cfg.endpointHost ++ "\n"
    ++ "content-type:" ++ content_type ++ "\n"
    ++ "x-backendai-version:" ++ cfg.apiVersion ++ "\n"
    ++ bodyHashHex C cfg bodyValue

end Client

/-- JS coercion `Number(c)` for a one-character string, as far as the
version-threshold comparison needs it: a decimal digit maps to its value,
whitespace to `0`, anything else to `NaN` (`none`). -/
def jsNumOfChar (c : Char) : Option Nat :=
  if c.isDigit then some (c.toNat - 48)
  else if c = ' ' ∨ c = '\t' ∨ c = '\n' ∨ c = '\r' then some 0
  else none

/-- The body-exclusion test of `Client.newSignedRequest`:
`this._config._apiVersion[1] < 4`.  Indexing past the end yields
`undefined`, and a comparison against `NaN` is false. -/
def versionCharLtFour (v : String) : Bool :=
  match v.data[1]? with
  | none => false
  | some c =>
    match jsNumOfChar c with
    | none => false
    | some n => decide (n < 4)

namespace Client

/-- Lines 517-521 of `newSignedRequest`: the canonical string actually
signed in API mode — the authenticated body participates exactly when the
version-threshold test passes, otherwise the empty string is hashed. -/
def signedCanonical (C : Crypto) (cfg : ClientConfig)
    (method queryString iso authBody content_type : String) : String :=
  if versionCharLtFour cfg.apiVersion then
    getAuthenticationString C cfg method queryString iso authBody content_type
  else
    getAuthenticationString C cfg method queryString iso "" content_type

end Client

/-- The multipart bodies of the `form-data` module as the client probes
them: whether `body.getBoundary` is a function, whether
`body instanceof FormData`, and the `content-type` entry of
`body.getHeaders()` (the boundary-bearing content type). -/
structure FormDataObj where
  hasGetBoundary : Bool
  isFormData : Bool
  contentTypeHeader : String
deriving DecidableEq

/-- The `body` argument of the request constructors: `null`/`undefined`; a
plain object, represented by its `JSON.stringify` serialization; or a
multipart form object (one satisfying the duck-typed form probe). -/
inductive BodyArg where
  | nullBody
  | jsonBody (serialized : String)
  | formBody (f : FormDataObj)
deriving DecidableEq

/-- The `body` field of an assembled request: a string (possibly empty) or
a form object. -/
inductive ReqBody where
  | str (s : String)
  | form (f : FormDataObj)
deriving DecidableEq

/-- Header list with JS `Headers.set` semantics: replace an existing entry
for the name, else append.  (All names used by the client are written with
consistent casing, so case normalization is irrelevant here.) -/
def headersSet (hs : List (String × String)) (k v : String) : List (String × String) :=
  if hs.any (fun p => p.1 == k) then
    hs.map (fun p => if p.1 == k then (k, v) else p)
  else hs ++ [(k, v)]

/-- Whether a header with the given name is present. -/
def hasHeader (hs : List (String × String)) (k : String) : Bool :=
  hs.any (fun p => p.1 == k)

/-- The value of the first header with the given name. -/
def getHeader (hs : List (String × String)) (k : String) : Option String :=
  (hs.find? (fun p => p.1 == k)).map (fun p => p.2)

/-- The `requestInfo` object assembled by the request constructors and
handed to `fetch`.  `mode` and `credentials` are `none` until something
sets them. -/
structure RequestInfo where
  method : String
  headers : List (String × String)
  cache : String
  body : Option ReqBody
  uri : String
  mode : Option String
  credentials : Option String
deriving DecidableEq

namespace Client

/-- The informational headers shared by both constructors; `agent` is the
value of `mangleUserAgentSignature()`. -/
def baseHeaders (cfg : ClientConfig) (agent : String) (d : JsDate) : List (String × String) :=
  [("User-Agent", "Backend.AI Client for Javascript " ++ agent),
   ("X-BackendAI-Version", cfg.apiVersion),
   ("X-BackendAI-Date", d.isoString)]

/-- `Client.newSignedRequest(method, queryString, body)`, with the call
time `d` and the user-agent suffix made explicit.  SESSION mode emits no
`Authorization` header and routes `/server*` paths directly, everything
else through `/func`; API mode signs the canonical string with the daily
key.  The trailing header fix-up mirrors the source: `null` bodies (loosely
equal to `undefined`) only get a `Content-Type`; form bodies with a
`getBoundary` adopt their boundary-bearing content type, and non-`FormData`
bodies get `Content-Type` plus a `Content-Length` of the UTF-8 byte length
of the authenticated body. -/
def newSignedRequest (C : Crypto) (cfg : ClientConfig) (agent : String)
    (method queryString : String) (body : BodyArg) (d : JsDate) : RequestInfo :=
  let parts : ReqBody × String × String :=
    match body with
    | BodyArg.nullBody => (ReqBody.str "", "", "application/json")
    | BodyArg.formBody f => (ReqBody.form f, "", "multipart/form-data")
    | BodyArg.jsonBody s => (ReqBody.str s, s, "application/json")
  let requestBody := parts.1
  let authBody := parts.2.1
  let content_type := parts.2.2
  let hdrsUri : List (String × String) × String :=
    if cfg.connectionMode == "SESSION" then
      (baseHeaders cfg agent d,
       if jsStartsWith queryString "/server" then cfg.endpoint ++ queryString
       else cfg.endpoint ++ "/func" ++ queryString)
    else
      let aStr := signedCanonical C cfg method queryString d.isoString authBody content_type
      let signKey := getSignKey C cfg cfg.secretKey d
      let rqstSig := hexOfBytes (sign C cfg (BufSrc.ofBytes signKey) aStr)
      (baseHeaders cfg agent d
         ++ [("Authorization",
              "BackendAI signMethod=HMAC-SHA256, credential=" ++ cfg.accessKey ++ ":" ++ rqstSig)],
       cfg.endpoint ++ queryString)
  let hdrs :=
    match body with
    | BodyArg.nullBody => headersSet hdrsUri.1 "Content-Type" content_type
    | BodyArg.formBody f =>
      let h1 := if f.hasGetBoundary then headersSet hdrsUri.1 "Content-Type" f.contentTypeHeader
                else hdrsUri.1
      if f.isFormData then h1
      else headersSet (headersSet h1 "Content-Type" content_type)
             "Content-Length" (toString (C.utf8 authBody).length)
    | BodyArg.jsonBody _ =>
      headersSet (headersSet hdrsUri.1 "Content-Type" content_type)
        "Content-Length" (toString (C.utf8 authBody).length)
  { method := method
    headers := hdrs
    cache := "default"
    body := some requestBody
    uri := hdrsUri.2
    mode := none
    credentials := none }

/-- `Client.newPublicRequest(method, queryString, body, urlPrefix)`.  The
`body` and prefix arguments are unused by the source beyond the signature;
SESSION mode routes `/server*` paths directly and everything else through
`/func`. -/
def newPublicRequest (cfg : ClientConfig) (agent : String)
    (method queryString : String) (d : JsDate) : RequestInfo :=
  let hdrs := [("Content-Type", "application/json")]
    ++ baseHeaders cfg agent d
    ++ [("credentials", "include"), ("mode", "cors")]
  { method := method
    headers := hdrs
    cache := "default"
    body := none
    uri :=
      if cfg.connectionMode == "SESSION" && jsStartsWith queryString "/server" then
        cfg.endpoint ++ queryString
      else if cfg.connectionMode == "SESSION" && !jsStartsWith queryString "/server" then
        cfg.endpoint ++ "/func" ++ queryString
      else cfg.endpoint ++ queryString
    mode := some "cors"
    credentials := none }

/-- Lines 153-160 of `_wrapWithPromise`: before `fetch`, a `GET` request
has its body cleared, and SESSION mode forces credentialed CORS. -/
def prepareRequest (cfg : ClientConfig) (rqst : RequestInfo) : RequestInfo :=
  let r1 := if rqst.method == "GET" then { rqst with body := none } else rqst
  if cfg.connectionMode == "SESSION" then
    { r1 with credentials := some "include", mode := some "cors" }
  else r1

end Client

/-- The decoded JSON value of an error body, reduced to what the client
reads from it: a string-valued field map (only `title` is ever accessed). -/
abbrev JsonVal : Type := List (String × String)

/-- A fetch `Response` as the client consumes it: the `Content-Type`
header (`none` when absent), HTTP status and status text, and the outcome
of each body-reading operation (`json()`, `text()`, and the raw-binary
read via `blob()`/`buffer()`), each of which may reject. -/
structure JsResponse where
  contentType : Option String
  status : Nat
  statusText : String
  jsonResult : Except String JsonVal
  textResult : Except String String
  blobResult : Except String Bytes

/-- node-fetch `Response.ok`: status in the 2xx range. -/
def JsResponse.respOk (r : JsResponse) : Bool :=
  decide (200 ≤ r.status) && decide (r.status < 300)

/-- The decoded response value: a tagged union of JSON, text, or raw
binary. -/
inductive DecodedBody where
  | json (j : JsonVal)
  | text (s : String)
  | blob (b : Bytes)
deriving DecidableEq

/-- JS interpolation `${body.title}` on a decoded body: the `title` field
of a JSON object when present, `undefined` otherwise (including text and
binary bodies, which have no such property). -/
def DecodedBody.titleInterp : DecodedBody → String
  | DecodedBody.json j =>
    match List.find? (fun p => p.1 == "title") j with
    | some p => p.2
    | none => "undefined"
  | DecodedBody.text _ => "undefined"
  | DecodedBody.blob _ => "undefined"

/-- The outcome of `await fetch(...)`: a transport-level rejection with its
message, or a response object. -/
inductive FetchOutcome where
  | failure (err : String)
  | success (resp : JsResponse)

/-- The classified error thrown by `_wrapWithPromise`: the phase constant
(`ERR_REQUEST`/`ERR_RESPONSE`/`ERR_SERVER`) and the built message. -/
structure ClassifiedError where
  type : Nat
  message : String
deriving DecidableEq

namespace Client

/-- The content-type dispatch of `_wrapWithPromise` (lines 162-179):
absent content type (unless `rawFile`) reads raw binary; a content type
starting with `application/json` or `application/problem+json` parses
JSON; `text/*` decodes text; anything else (and every `rawFile` read)
reads raw binary. -/
def selectBody (rawFile : Bool) (resp : JsResponse) : Except String DecodedBody :=
  if rawFile == false && resp.contentType.isNone then
    Except.map DecodedBody.blob resp.blobResult
  else if rawFile == false &&
      (match resp.contentType with
       | none => false
       | some ct => jsStartsWith ct "application/json" || jsStartsWith ct "application/problem+json") then
    Except.map DecodedBody.json resp.jsonResult
  else if rawFile == false &&
      (match resp.contentType with
       | none => false
       | some ct => jsStartsWith ct "text/") then
    Except.map DecodedBody.text resp.textResult
  else
    Except.map DecodedBody.blob resp.blobResult

/-- The phase-tracked processing of `_wrapWithPromise` after the request
has been sent: a transport failure is classified `ERR_REQUEST`; a failure
while reading/decoding the body `ERR_RESPONSE`; a decoded non-2xx response
`ERR_SERVER` with the status, status text and body title in the message;
and a decoded 2xx response returns the decoded body unchanged. -/
def processOutcome (rawFile : Bool) (o : FetchOutcome) : Except ClassifiedError DecodedBody :=
  match o with
  | FetchOutcome.failure err =>
    Except.error { type := ERR_REQUEST, message := "sending request has failed: " ++ err }
  | FetchOutcome.success resp =>
    match selectBody rawFile resp with
    | Except.error err =>
      Except.error { type := ERR_RESPONSE, message := "reading response has failed: " ++ err }
    | Except.ok body =>
      if resp.respOk then Except.ok body
      else
        Except.error
          { type := ERR_SERVER
            message := "server responded failure: " ++ toString resp.status ++ " "
              ++ resp.statusText ++ " - " ++ body.titleInterp }

end Client

/-- The mutable per-client state the version probe and login check touch:
the credential store plus the client-level `_managerVersion` and
`_apiVersion` fields (both `null` at construction). -/
structure ClientState where
  config : ClientConfig
  managerVersion : Option String
  clientApiVersion : Option String
deriving DecidableEq

/-- The body of a successful `getServerVersion()` probe: the
server-reported manager and API versions. -/
structure VersionProbe where
  manager : String
  version : String
deriving DecidableEq

/-- The decoded body of a `/server/login-check` call: the `authenticated`
flag and the `data.access_key` field. -/
structure LoginCheck where
  authenticated : Bool
  accessKeyData : String
deriving DecidableEq

/-- The outcome of the login-check request: an error from
`_wrapWithPromise`, or its decoded result. -/
inductive LoginCheckOutcome where
  | err
  | ok (r : LoginCheck)
deriving DecidableEq

namespace Client

/-- `Client.getManagerVersion()`, with the probe's decoded body made
explicit: on the first successful call it records the manager version,
adopts the server-reported API version into the client and the credential
store, and returns the manager version; later calls are no-ops. -/
def getManagerVersion (st : ClientState) (v : VersionProbe) : ClientState × Option String :=
  if st.managerVersion.isNone then
    let stNew : ClientState :=
      { config := { st.config with apiVersion := v.version }
        managerVersion := some v.manager
        clientApiVersion := some v.version }
    (stNew, stNew.managerVersion)
  else (st, st.managerVersion)

/-- `Client.check_login()`, with the request's outcome made explicit: a
failed request returns `false`; an authenticated result copies
`result.data.access_key` into the credential store and returns the
`authenticated` flag. -/
def check_login (st : ClientState) (o : LoginCheckOutcome) : ClientState × Bool :=
  match o with
  | LoginCheckOutcome.err => (st, false)
  | LoginCheckOutcome.ok r =>
    if r.authenticated then
      ({ st with config := { st.config with accessKey := r.accessKeyData } }, r.authenticated)
    else (st, r.authenticated)

end Client

/-- Newline-joined concatenation, following the spec's words: "each
component newline-separated, in that fixed order". -/
def joinNL : List String → String
  | [] => ""
  | [x] => x
  | x :: xs => x ++ "\n" ++ joinNL xs

/-- The canonical request string as the spec describes it: the
newline-separated concatenation of method, path, timestamp, host line,
content-type line, version line, and body hash, in that fixed order. -/
def canonicalSpecString (C : Crypto) (cfg : ClientConfig)
    (method path ts bodyValue content_type : String) : String :=
  joinNL [method, path, ts,
          "host:" ++ cfg.endpointHost,
          "content-type:" ++ content_type,
          "x-backendai-version:" ++ cfg.apiVersion,
          Client.bodyHashHex C cfg bodyValue]

/-- The SESSION-mode bypass set as the spec words it: the literal
login/logout/session-check endpoint paths used by the client
(`/server/login`, `/server/logout`, `/server/login-check`), taken as
prefixes.  Modelled from the spec for comparison with the source's
routing predicate. -/
def specBypass (path : String) : Bool :=
  jsStartsWith path "/server/login" || jsStartsWith path "/server/logout"
    || jsStartsWith path "/server/login-check"

/-- A concrete, fully computable `Crypto` instantiation used by witnesses
and counterexamples: the hash is the identity on byte lists and the HMAC is
the injective length-prefixed pairing of key and message. -/
def idCrypto : Crypto :=
  { hashDigest := fun _ b => b
    hmacDigest := fun _ k m => k.length :: (k ++ m)
    utf8 := fun s => s.data.map Char.toNat }

/-- A concrete API-mode credential store for witnesses. -/
def exCfg : ClientConfig :=
  { endpoint := "https://api.example.com"
    endpointHost := "api.example.com"
    accessKey := "AK"
    secretKey := "SK"
    hashType := "sha256"
    apiVersionMajor := "v4"
    apiVersion := "v4.20190315"
    connectionMode := "API" }

/-- The same store in SESSION connection mode. -/
def sessionCfg : ClientConfig := { exCfg with connectionMode := "SESSION" }

/-- A concrete timestamp: 2019-01-01 UTC. -/
def exDate : JsDate := ⟨2019, 0, 1, "2019-01-01T00:00:00.000Z"⟩

/-- A concrete timestamp one UTC day later. -/
def exDate2 : JsDate := ⟨2019, 0, 2, "2019-01-02T00:00:00.000Z"⟩

/-- A freshly constructed client state over `exCfg`. -/
def exState : ClientState := { config := exCfg, managerVersion := none, clientApiVersion := none }

/-- A concrete 404 response with JSON body carrying a `title`, as in the
spec's end-to-end scenario 2. -/
def kernel404Resp : JsResponse :=
  { contentType := some "application/json"
    status := 404
    statusText := "Not Found"
    jsonResult := Except.ok [("title", "Kernel not found")]
    textResult := Except.ok ""
    blobResult := Except.ok [] }

/-- A concrete 500 response with a plain-text body (no `title`). -/
def plain500Resp : JsResponse :=
  { contentType := some "text/plain"
    status := 500
    statusText := "Internal Server Error"
    jsonResult := Except.error "invalid json"
    textResult := Except.ok "boom"
    blobResult := Except.ok [] }

/-- A concrete text response, as in the spec's end-to-end scenario 4. -/
def textOkResp : JsResponse :=
  { contentType := some "text/plain"
    status := 200
    statusText := "OK"
    jsonResult := Except.error "invalid json"
    textResult := Except.ok "ok"
    blobResult := Except.ok [] }

end BackendAI

namespace BackendAI

/-! ## Helper lemmas -/

/-- Splitting an equation of lists around a separator that occurs in
neither left part: the left parts and the remainders agree. -/
theorem nlfree_append_split : ∀ (a1 a2 r1 r2 : List Char), '\n' ∉ a1 → '\n' ∉ a2 →
    a1 ++ '\n' :: r1 = a2 ++ '\n' :: r2 → a1 = a2 ∧ r1 = r2 := by
  intro a1
  induction a1 with
  | nil =>
    intro a2 r1 r2 _ h2 h
    cases a2 with
    | nil => simpa using h
    | cons c t =>
      simp only [List.nil_append, List.cons_append, List.cons.injEq] at h
      cases h.1
      exact absurd (List.mem_cons_self _ t) h2
  | cons c t ih =>
    intro a2 r1 r2 h1 h2 h
    cases a2 with
    | nil =>
      simp only [List.nil_append, List.cons_append, List.cons.injEq] at h
      cases h.1
      exact absurd (List.mem_cons_self _ t) h1
    | cons d u =>
      simp only [List.cons_append, List.cons.injEq] at h
      have ht := ih u r1 r2 (fun hm => h1 (List.mem_cons_of_mem _ hm))
        (fun hm => h2 (List.mem_cons_of_mem _ hm)) h.2
      exact ⟨by rw [h.1, ht.1], ht.2⟩

/-- A string beginning with a prefix whose first character is `c` itself
begins with `c`. -/
theorem head_of_jsStartsWith {ct p : String} {c : Char} {l : List Char}
    (hp : p.data = c :: l) (h : jsStartsWith ct p = true) : ∃ r, ct.data = c :: r := by
  have hpre : p.data <+: ct.data := by simpa [jsStartsWith] using h
  rcases hpre with ⟨t, ht⟩
  rw [hp] at ht
  exact ⟨l ++ t, by simpa using ht.symm⟩

/-- A `text/*` content type matches neither JSON prefix. -/
theorem text_not_json {ct : String} (h : jsStartsWith ct "text/" = true) :
    jsStartsWith ct "application/json" = false
      ∧ jsStartsWith ct "application/problem+json" = false := by
  rcases head_of_jsStartsWith (p := "text/") rfl h with ⟨r, hr⟩
  constructor
  · cases hj : jsStartsWith ct "application/json"
    · rfl
    · exfalso
      rcases head_of_jsStartsWith (p := "application/json") rfl hj with ⟨r2, hr2⟩
      rw [hr] at hr2
      exact absurd (List.cons.inj hr2).1 (by decide)
  · cases hj : jsStartsWith ct "application/problem+json"
    · rfl
    · exfalso
      rcases head_of_jsStartsWith (p := "application/problem+json") rfl hj with ⟨r2, hr2⟩
      rw [hr] at hr2
      exact absurd (List.cons.inj hr2).1 (by decide)

/-- The UTF-8 encoder of the computable `Crypto` instantiation is
injective. -/
theorem idCrypto_utf8_inj : Function.Injective idCrypto.utf8 := by
  intro a b h
  apply String.ext
  have hc : Function.Injective Char.toNat := by
    intro c1 c2 hc
    exact Char.ext (UInt32.toNat.inj hc)
  exact List.map_injective_iff.mpr hc h

/-- The pairing HMAC of the computable `Crypto` instantiation is injective
in the message for a fixed key. -/
theorem idCrypto_hmac_msg_inj (k : Bytes) :
    ∀ x y : Bytes, idCrypto.hmacDigest "sha256" k x = idCrypto.hmacDigest "sha256" k y → x = y := by
  intro x y h
  simp only [idCrypto, List.cons.injEq] at h
  exact List.append_cancel_left h.2

/-- The pairing HMAC of the computable `Crypto` instantiation is injective
in the key for a fixed message. -/
theorem idCrypto_hmac_key_inj (m : Bytes) :
    ∀ x y : Bytes, idCrypto.hmacDigest "sha256" x m = idCrypto.hmacDigest "sha256" y m → x = y := by
  intro x y h
  simp only [idCrypto, List.cons.injEq] at h
  exact List.append_cancel_right h.2

/-! ## Claim theorems -/

/-- C1: the canonical request string built by
`Client.getAuthenticationString` is exactly the newline-separated
concatenation of method, path, timestamp, `host:` + endpoint host,
`content-type:` + content type, `x-backendai-version:` + protocol version,
and the hex digest of the body under the configured hash algorithm, in
that fixed order.  The builder is a pure Lean function of its arguments,
so the same inputs always yield the same byte-identical string. -/
theorem c1_canonical_request_string (C : Crypto) (cfg : ClientConfig)
    (method path ts bodyValue content_type : String) :
    Client.getAuthenticationString C cfg method path ts bodyValue content_type
      = canonicalSpecString C cfg method path ts bodyValue content_type := by
  apply String.ext
  simp [Client.getAuthenticationString, canonicalSpecString, joinNL, List.append_assoc]

/-- C2: the daily signing key equals
`HMAC(HMAC(secret as UTF-8, UTC date as YYYYMMDD), endpoint host)`; it
depends only on the secret, the UTC calendar date and the host, so two
timestamps of the same UTC day give the identical key; and, provided the
(abstractly modelled) HMAC and UTF-8 encoding are collision-free on the
relevant inputs, timestamps whose rendered UTC dates differ — in
particular, timestamps on the two sides of a UTC day boundary — give
different keys. -/
theorem c2_daily_key (C : Crypto) (cfg : ClientConfig) (secret : String) (t1 t2 : JsDate)
    (hutf8 : Function.Injective C.utf8)
    (hinj1 : ∀ x y : Bytes, C.hmacDigest cfg.hashType (C.utf8 secret) x
        = C.hmacDigest cfg.hashType (C.utf8 secret) y → x = y)
    (hinj2 : ∀ x y : Bytes, C.hmacDigest cfg.hashType x (C.utf8 cfg.endpointHost)
        = C.hmacDigest cfg.hashType y (C.utf8 cfg.endpointHost) → x = y) :
    (Client.getSignKey C cfg secret t1
      = C.hmacDigest cfg.hashType
          (C.hmacDigest cfg.hashType (C.utf8 secret) (C.utf8 (Client.getCurrentDate t1)))
          (C.utf8 cfg.endpointHost))
    ∧ (t1.utcFullYear = t2.utcFullYear → t1.utcMonth = t2.utcMonth → t1.utcDate = t2.utcDate →
        Client.getSignKey C cfg secret t1 = Client.getSignKey C cfg secret t2)
    ∧ (Client.getCurrentDate t1 ≠ Client.getCurrentDate t2 →
        Client.getSignKey C cfg secret t1 ≠ Client.getSignKey C cfg secret t2) := by
  refine ⟨rfl, ?_, ?_⟩
  · intro hy hm hd
    simp [Client.getSignKey, Client.sign, Client.getCurrentDate, hy, hm, hd]
  · intro hdates heq
    exact hdates (hutf8 (hinj1 _ _ (hinj2 _ _ heq)))

/-- C2 witness: under the computable injective `Crypto` instantiation, the
keys for 2019-01-01 and 2019-01-02 differ. -/
theorem c2_daily_key_witness :
    Client.getSignKey idCrypto exCfg "s3cr3t" exDate
      ≠ Client.getSignKey idCrypto exCfg "s3cr3t" exDate2 :=
  (c2_daily_key idCrypto exCfg "s3cr3t" exDate exDate2 idCrypto_utf8_inj
    (idCrypto_hmac_msg_inj _) (idCrypto_hmac_key_inj _)).2.2 (by decide)


/-- C3: for a signed API-mode request with a JSON body, the authenticated
body hashed into the canonical string is the serialized JSON body when the
protocol version is below the threshold (the source's
`_apiVersion[1] < 4` test) and the empty string when it is at or above it;
the `Authorization` header signs exactly that canonical string, and the
body actually transmitted in the request is the serialized JSON body in
either case. -/
theorem c3_signed_body_threshold (C : Crypto) (cfg : ClientConfig) (agent m qs s : String)
    (d : JsDate) (hAPI : cfg.connectionMode ≠ "SESSION") :
    (versionCharLtFour cfg.apiVersion = true →
      Client.signedCanonical C cfg m qs d.isoString s "application/json"
        = Client.getAuthenticationString C cfg m qs d.isoString s "application/json")
    ∧ (versionCharLtFour cfg.apiVersion = false →
      Client.signedCanonical C cfg m qs d.isoString s "application/json"
        = Client.getAuthenticationString C cfg m qs d.isoString "" "application/json")
    ∧ getHeader (Client.newSignedRequest C cfg agent m qs (BodyArg.jsonBody s) d).headers
        "Authorization"
      = some ("BackendAI signMethod=HMAC-SHA256, credential=" ++ cfg.accessKey ++ ":"
          ++ hexOfBytes (Client.sign C cfg
               (Client.BufSrc.ofBytes (Client.getSignKey C cfg cfg.secretKey d))
               (Client.signedCanonical C cfg m qs d.isoString s "application/json")))
    ∧ (Client.newSignedRequest C cfg agent m qs (BodyArg.jsonBody s) d).body
        = some (ReqBody.str s) := by
  have hb : (cfg.connectionMode == "SESSION") = false := by simpa using hAPI
  refine ⟨fun h => ?_, fun h => ?_, ?_, ?_⟩
  · simp [Client.signedCanonical, h]
  · simp [Client.signedCanonical, h]
  · simp [Client.newSignedRequest, hb, getHeader, headersSet, Client.baseHeaders, List.find?]
  · simp [Client.newSignedRequest, hb]

/-- C3 witness: under the default version string the canonical string of a
signed request hashes the empty string, and the serialized body is still
transmitted. -/
theorem c3_signed_body_threshold_witness :
    Client.signedCanonical idCrypto exCfg "POST" "/kernel/create" "2019-01-01T00:00:00.000Z"
        "serializedbody" "application/json"
      = Client.getAuthenticationString idCrypto exCfg "POST" "/kernel/create"
          "2019-01-01T00:00:00.000Z" "" "application/json"
    ∧ (Client.newSignedRequest idCrypto exCfg "AG" "POST" "/kernel/create"
        (BodyArg.jsonBody "serializedbody") exDate).body
      = some (ReqBody.str "serializedbody") := by
  have h := c3_signed_body_threshold idCrypto exCfg "AG" "POST" "/kernel/create"
    "serializedbody" exDate (by decide)
  exact ⟨h.2.1 (by decide), h.2.2.2⟩

/-- C4: the response processor classifies each failure into exactly one
phase, decided by the phase reached when it occurred: a transport failure
is `ERR_REQUEST`; a body-decoding failure is `ERR_RESPONSE`; a decoded
non-2xx response is `ERR_SERVER`, with the status code, status text and
the JSON body's `title` carried in the message; a decoded 2xx response
returns the decoded value unchanged.  In particular, a 404 response with
JSON body title `Kernel not found` yields the `ERR_SERVER` error carrying
`404` and that title. -/
theorem c4_error_phases (rawFile : Bool) :
    (∀ e : String, Client.processOutcome rawFile (FetchOutcome.failure e)
      = Except.error { type := Client.ERR_REQUEST, message := "sending request has failed: " ++ e })
    ∧ (∀ (resp : JsResponse) (e : String), Client.selectBody rawFile resp = Except.error e →
        Client.processOutcome rawFile (FetchOutcome.success resp)
          = Except.error
              { type := Client.ERR_RESPONSE, message := "reading response has failed: " ++ e })
    ∧ (∀ (resp : JsResponse) (b : DecodedBody), Client.selectBody rawFile resp = Except.ok b →
        resp.respOk = false →
        Client.processOutcome rawFile (FetchOutcome.success resp)
          = Except.error
              { type := Client.ERR_SERVER
                message := "server responded failure: " ++ toString resp.status ++ " "
                  ++ resp.statusText ++ " - " ++ b.titleInterp })
    ∧ (∀ (resp : JsResponse) (b : DecodedBody), Client.selectBody rawFile resp = Except.ok b →
        resp.respOk = true →
        Client.processOutcome rawFile (FetchOutcome.success resp) = Except.ok b)
    ∧ Client.processOutcome false (FetchOutcome.success kernel404Resp)
      = Except.error
          { type := Client.ERR_SERVER
            message := "server responded failure: 404 Not Found - Kernel not found" } := by
  refine ⟨fun e => rfl, fun resp e h => ?_, fun resp b h hok => ?_, fun resp b h hok => ?_, ?_⟩
  · simp [Client.processOutcome, h]
  · simp [Client.processOutcome, h, hok]
  · simp [Client.processOutcome, h, hok]
  · simp only [Client.processOutcome]
    rfl

/-- C4 witness: a concrete non-2xx plain-text response is classified
`ERR_SERVER` with the status, status text and the absent title rendered as
`undefined` in the message. -/
theorem c4_error_phases_witness :
    Client.processOutcome false (FetchOutcome.success plain500Resp)
      = Except.error
          { type := Client.ERR_SERVER
            message := "server responded failure: 500 Internal Server Error - undefined" } :=
  ((c4_error_phases false).2.2.1 plain500Resp (DecodedBody.text "boom") rfl rfl).trans rfl

/-- C5: with the default raw-file flag, the decode path is selected
totally by the content type: an absent content type reads raw binary; a
content type starting with `application/json` or `application/problem+json`
parses JSON; a `text/*` content type decodes text; any other content type
reads raw binary.  In particular each of no content-type,
`application/json`, `application/problem+json`, `text/plain`, and
`application/octet-stream` selects exactly one decode path. -/
theorem c5_content_type_dispatch (resp : JsResponse) :
    (resp.contentType = none →
      Client.selectBody false resp = Except.map DecodedBody.blob resp.blobResult)
    ∧ (∀ ct : String, resp.contentType = some ct →
        (jsStartsWith ct "application/json" = true
          ∨ jsStartsWith ct "application/problem+json" = true) →
        Client.selectBody false resp = Except.map DecodedBody.json resp.jsonResult)
    ∧ (∀ ct : String, resp.contentType = some ct → jsStartsWith ct "text/" = true →
        Client.selectBody false resp = Except.map DecodedBody.text resp.textResult)
    ∧ (∀ ct : String, resp.contentType = some ct →
        jsStartsWith ct "application/json" = false →
        jsStartsWith ct "application/problem+json" = false →
        jsStartsWith ct "text/" = false →
        Client.selectBody false resp = Except.map DecodedBody.blob resp.blobResult) := by
  refine ⟨fun h => ?_, fun ct h hj => ?_, fun ct h ht => ?_, fun ct h h1 h2 h3 => ?_⟩
  · simp [Client.selectBody, h]
  · rcases hj with hj | hj <;> simp [Client.selectBody, h, hj]
  · have hn := text_not_json ht
    simp [Client.selectBody, h, ht, hn.1, hn.2]
  · simp [Client.selectBody, h, h1, h2, h3]

/-- C5 witness: a `text/plain` response with body `ok` decodes to the text
string `ok`, not JSON. -/
theorem c5_content_type_dispatch_witness :
    Client.selectBody false textOkResp = Except.ok (DecodedBody.text "ok") :=
  ((c5_content_type_dispatch textOkResp).2.2.1 "text/plain" rfl (by decide)).trans rfl


/-- C6 counterexample: the claim's routing is false as stated.  The path
`/serverstatus` does not begin with any of the literal
login/logout/session-check paths, so the claim routes it through the
proxy segment; the code's bypass test is the prefix `/server`, so it is
routed directly instead. -/
theorem c6_counterexample :
    specBypass "/serverstatus" = false
    ∧ (Client.newSignedRequest idCrypto sessionCfg "AG" "GET" "/serverstatus"
        BodyArg.nullBody exDate).uri
      = "https://api.example.com/serverstatus"
    ∧ "https://api.example.com/serverstatus"
      ≠ sessionCfg.endpoint ++ "/func" ++ "/serverstatus" := by
  refine ⟨by decide, rfl, by decide⟩

/-- C6 amended: in SESSION connection mode no assembled request carries an
`Authorization` header; the executed request carries the
credentials-include and CORS flags; and the target URI is computed by a
total partition on the single literal bypass prefix `/server` (the common
prefix of the login/logout/session-check endpoints): a path beginning
with `/server` is routed as endpoint + path, and every other path as
endpoint + `/func` + path. -/
theorem c6_session_mode (C : Crypto) (cfg : ClientConfig) (agent method qs : String)
    (body : BodyArg) (d : JsDate) (hS : cfg.connectionMode = "SESSION") :
    hasHeader (Client.newSignedRequest C cfg agent method qs body d).headers "Authorization" = false
    ∧ hasHeader (Client.newPublicRequest cfg agent method qs d).headers "Authorization" = false
    ∧ (Client.prepareRequest cfg (Client.newSignedRequest C cfg agent method qs body d)).credentials
        = some "include"
    ∧ (Client.prepareRequest cfg (Client.newSignedRequest C cfg agent method qs body d)).mode
        = some "cors"
    ∧ (Client.prepareRequest cfg (Client.newPublicRequest cfg agent method qs d)).credentials
        = some "include"
    ∧ (Client.prepareRequest cfg (Client.newPublicRequest cfg agent method qs d)).mode
        = some "cors"
    ∧ (jsStartsWith qs "/server" = true →
        (Client.newSignedRequest C cfg agent method qs body d).uri = cfg.endpoint ++ qs
        ∧ (Client.newPublicRequest cfg agent method qs d).uri = cfg.endpoint ++ qs)
    ∧ (jsStartsWith qs "/server" = false →
        (Client.newSignedRequest C cfg agent method qs body d).uri
            = cfg.endpoint ++ "/func" ++ qs
        ∧ (Client.newPublicRequest cfg agent method qs d).uri
            = cfg.endpoint ++ "/func" ++ qs) := by
  refine ⟨?_, ?_, ?_, ?_, ?_, ?_, fun hsrv => ⟨?_, ?_⟩, fun hsrv => ⟨?_, ?_⟩⟩
  · rcases body with _ | sv | f
    · simp [Client.newSignedRequest, hS, hasHeader, headersSet, Client.baseHeaders]
    · simp [Client.newSignedRequest, hS, hasHeader, headersSet, Client.baseHeaders]
    · rcases f with ⟨gb, isfd, cth⟩
      cases gb <;> cases isfd <;>
        simp [Client.newSignedRequest, hS, hasHeader, headersSet, Client.baseHeaders]
  · simp [Client.newPublicRequest, hasHeader, Client.baseHeaders]
  · simp [Client.prepareRequest, hS]
  · simp [Client.prepareRequest, hS]
  · simp [Client.prepareRequest, hS]
  · simp [Client.prepareRequest, hS]
  · rcases body with _ | sv | f <;> simp [Client.newSignedRequest, hS, hsrv]
  · simp [Client.newPublicRequest, hS, hsrv]
  · rcases body with _ | sv | f <;> simp [Client.newSignedRequest, hS, hsrv]
  · simp [Client.newPublicRequest, hS, hsrv]

/-- C6 witness: a concrete SESSION-mode request to `/kernel/abc` has no
`Authorization` header and is routed through the `/func` proxy segment. -/
theorem c6_session_mode_witness :
    hasHeader (Client.newSignedRequest idCrypto sessionCfg "AG" "POST" "/kernel/abc"
        (BodyArg.jsonBody "payload") exDate).headers "Authorization" = false
    ∧ (Client.newSignedRequest idCrypto sessionCfg "AG" "POST" "/kernel/abc"
        (BodyArg.jsonBody "payload") exDate).uri
      = sessionCfg.endpoint ++ "/func" ++ "/kernel/abc" := by
  have h := c6_session_mode idCrypto sessionCfg "AG" "POST" "/kernel/abc"
    (BodyArg.jsonBody "payload") exDate rfl
  exact ⟨h.1, (h.2.2.2.2.2.2.2 (by decide)).1⟩

/-- C7: a request executed with method `GET` never carries a body — the
pre-send fix-up clears the body field of any `GET` request, even when the
request was assembled from a non-empty body argument. -/
theorem c7_get_no_body (cfg : ClientConfig) :
    (∀ rqst : RequestInfo, rqst.method = "GET" → (Client.prepareRequest cfg rqst).body = none)
    ∧ ∀ (C : Crypto) (agent qs sv : String) (d : JsDate),
        (Client.prepareRequest cfg
          (Client.newSignedRequest C cfg agent "GET" qs (BodyArg.jsonBody sv) d)).body = none := by
  have hmain : ∀ rqst : RequestInfo, rqst.method = "GET" →
      (Client.prepareRequest cfg rqst).body = none := by
    intro rqst h
    simp only [Client.prepareRequest, h]
    by_cases hc : cfg.connectionMode == "SESSION" <;> simp [hc]
  exact ⟨hmain, fun C agent qs sv d => hmain _ rfl⟩

/-- C7 witness: a concrete `GET` request assembled with a non-empty JSON
body argument is sent without a body. -/
theorem c7_get_no_body_witness :
    (Client.prepareRequest exCfg
      (Client.newSignedRequest idCrypto exCfg "AG" "GET" "/kernel/abc"
        (BodyArg.jsonBody "nonempty") exDate)).body = none :=
  (c7_get_no_body exCfg).1
    (Client.newSignedRequest idCrypto exCfg "AG" "GET" "/kernel/abc"
      (BodyArg.jsonBody "nonempty") exDate) rfl

/-- C8 counterexample: the credential store is not immutable apart from
version adoption — a successful authenticated login check overwrites the
stored access key with the server-reported one. -/
theorem c8_counterexample :
    (Client.check_login exState
        (LoginCheckOutcome.ok { authenticated := true, accessKeyData := "SESSION-KEY" })).1.config.accessKey
      ≠ exState.config.accessKey := by
  decide

/-- C8 amended: the credential store is immutable after construction
except for two mutations: the one-time adoption of the server-reported
protocol version by `getManagerVersion` (which leaves every other stored
field unchanged and is idempotent — any further probe, in particular one
with the same value, is a no-op), and `check_login`'s adoption of the
authenticated session access key (which changes at most the access key). -/
theorem c8_store_mutation (st : ClientState) (v : VersionProbe) (o : LoginCheckOutcome) :
    ((Client.getManagerVersion st v).1.config.endpoint = st.config.endpoint
      ∧ (Client.getManagerVersion st v).1.config.endpointHost = st.config.endpointHost
      ∧ (Client.getManagerVersion st v).1.config.accessKey = st.config.accessKey
      ∧ (Client.getManagerVersion st v).1.config.secretKey = st.config.secretKey
      ∧ (Client.getManagerVersion st v).1.config.hashType = st.config.hashType
      ∧ (Client.getManagerVersion st v).1.config.connectionMode = st.config.connectionMode)
    ∧ (∀ v2 : VersionProbe,
        (Client.getManagerVersion (Client.getManagerVersion st v).1 v2).1
          = (Client.getManagerVersion st v).1)
    ∧ ((Client.check_login st o).1.config.endpoint = st.config.endpoint
      ∧ (Client.check_login st o).1.config.endpointHost = st.config.endpointHost
      ∧ (Client.check_login st o).1.config.secretKey = st.config.secretKey
      ∧ (Client.check_login st o).1.config.hashType = st.config.hashType
      ∧ (Client.check_login st o).1.config.apiVersion = st.config.apiVersion
      ∧ (Client.check_login st o).1.config.connectionMode = st.config.connectionMode
      ∧ (Client.check_login st o).1.managerVersion = st.managerVersion) := by
  refine ⟨?_, ?_, ?_⟩
  · by_cases h : st.managerVersion.isNone <;> simp [Client.getManagerVersion, h]
  · intro v2
    by_cases h : st.managerVersion.isNone <;> simp [Client.getManagerVersion, h]
  · rcases o with _ | r
    · simp [Client.check_login]
    · by_cases h : r.authenticated <;> simp [Client.check_login, h]


/-- C9 counterexample: two distinct (method, path, body) triples with the
same body (hence equal body hashes, not a hash collision) can produce the
same canonical string, by moving a newline between method and path. -/
theorem c9_counterexample :
    (("GET\nX", "/y", "") ≠ (("GET" : String), ("X\n/y" : String), ("" : String)))
    ∧ Client.getAuthenticationString idCrypto exCfg "GET\nX" "/y"
        "2019-01-01T00:00:00.000Z" "" "application/json"
      = Client.getAuthenticationString idCrypto exCfg "GET" "X\n/y"
          "2019-01-01T00:00:00.000Z" "" "application/json" := by
  refine ⟨by decide, by decide⟩

/-- C9 amended: restricted to methods and paths without embedded
newlines, two (method, path, body) triples producing the same canonical
string (with timestamp, host, content type and version held fixed) agree
on method and path and collide in their body hashes; and changing any
single input field of the builder — method, path, timestamp, host,
content type, protocol version, or body hash — changes the resulting
canonical string (stated contrapositively: equal outputs force the field
to be equal). -/
theorem c9_canonical_sensitivity (C : Crypto) (cfg : ClientConfig) :
    (∀ ts ct m1 m2 p1 p2 b1 b2 : String,
        '\n' ∉ m1.data → '\n' ∉ m2.data → '\n' ∉ p1.data → '\n' ∉ p2.data →
        Client.getAuthenticationString C cfg m1 p1 ts b1 ct
          = Client.getAuthenticationString C cfg m2 p2 ts b2 ct →
        m1 = m2 ∧ p1 = p2 ∧ Client.bodyHashHex C cfg b1 = Client.bodyHashHex C cfg b2)
    ∧ (∀ ts ct p b m1 m2 : String,
        Client.getAuthenticationString C cfg m1 p ts b ct
          = Client.getAuthenticationString C cfg m2 p ts b ct → m1 = m2)
    ∧ (∀ ts ct m b p1 p2 : String,
        Client.getAuthenticationString C cfg m p1 ts b ct
          = Client.getAuthenticationString C cfg m p2 ts b ct → p1 = p2)
    ∧ (∀ ct m p b ts1 ts2 : String,
        Client.getAuthenticationString C cfg m p ts1 b ct
          = Client.getAuthenticationString C cfg m p ts2 b ct → ts1 = ts2)
    ∧ (∀ ts ct m p b H1 H2 : String,
        Client.getAuthenticationString C { cfg with endpointHost := H1 } m p ts b ct
          = Client.getAuthenticationString C { cfg with endpointHost := H2 } m p ts b ct →
        H1 = H2)
    ∧ (∀ ts m p b ct1 ct2 : String,
        Client.getAuthenticationString C cfg m p ts b ct1
          = Client.getAuthenticationString C cfg m p ts b ct2 → ct1 = ct2)
    ∧ (∀ ts ct m p b v1 v2 : String,
        Client.getAuthenticationString C { cfg with apiVersion := v1 } m p ts b ct
          = Client.getAuthenticationString C { cfg with apiVersion := v2 } m p ts b ct →
        v1 = v2)
    ∧ (∀ ts ct m p b1 b2 : String,
        Client.getAuthenticationString C cfg m p ts b1 ct
          = Client.getAuthenticationString C cfg m p ts b2 ct →
        Client.bodyHashHex C cfg b1 = Client.bodyHashHex C cfg b2) := by
  have e1 : ("\n" : String).data = ['\n'] := rfl
  have e2 : ("host:" : String).data = 'h' :: 'o' :: 's' :: 't' :: ':' :: [] := rfl
  refine ⟨?_, ?_, ?_, ?_, ?_, ?_, ?_, ?_⟩
  · intro ts ct m1 m2 p1 p2 b1 b2 hm1 hm2 hp1 hp2 h
    have hd := congrArg String.data h
    simp only [Client.getAuthenticationString, String.data_append, List.append_assoc, e1,
      List.cons_append, List.nil_append] at hd
    have s1 := nlfree_append_split _ _ _ _ hm1 hm2 hd
    have s2 := nlfree_append_split _ _ _ _ hp1 hp2 s1.2
    refine ⟨String.ext s1.1, String.ext s2.1, ?_⟩
    have r := s2.2
    simp only [List.append_cancel_left_eq, List.cons.injEq, true_and] at r
    exact String.ext r
  · intro ts ct p b m1 m2 h
    have hd := congrArg String.data h
    simp only [Client.getAuthenticationString, String.data_append, List.append_assoc,
      List.append_cancel_right_eq, List.append_cancel_left_eq, List.cons.injEq, true_and] at hd
    exact String.ext hd
  · intro ts ct m b p1 p2 h
    have hd := congrArg String.data h
    simp only [Client.getAuthenticationString, String.data_append, List.append_assoc, e1,
      List.cons_append, List.nil_append,
      List.append_cancel_left_eq, List.cons.injEq, true_and] at hd
    exact String.ext (by simpa [List.append_cancel_right_eq] using hd)
  · intro ct m p b ts1 ts2 h
    have hd := congrArg String.data h
    simp only [Client.getAuthenticationString, String.data_append, List.append_assoc, e1,
      List.cons_append, List.nil_append,
      List.append_cancel_left_eq, List.cons.injEq, true_and] at hd
    exact String.ext (by simpa [List.append_cancel_right_eq] using hd)
  · intro ts ct m p b H1 H2 h
    have hd := congrArg String.data h
    simp only [Client.getAuthenticationString, Client.bodyHashHex, String.data_append,
      List.append_assoc, e1, e2, List.cons_append, List.nil_append,
      List.append_cancel_left_eq, List.cons.injEq, true_and] at hd
    exact String.ext (by simpa [List.append_cancel_right_eq] using hd)
  · intro ts m p b ct1 ct2 h
    have hd := congrArg String.data h
    simp only [Client.getAuthenticationString, String.data_append, List.append_assoc, e1,
      List.cons_append, List.nil_append,
      List.append_cancel_left_eq, List.cons.injEq, true_and] at hd
    exact String.ext (by simpa [List.append_cancel_right_eq] using hd)
  · intro ts ct m p b v1 v2 h
    have hd := congrArg String.data h
    simp only [Client.getAuthenticationString, Client.bodyHashHex, String.data_append,
      List.append_assoc, e1, List.cons_append, List.nil_append,
      List.append_cancel_left_eq, List.cons.injEq, true_and] at hd
    exact String.ext (by simpa [List.append_cancel_right_eq] using hd)
  · intro ts ct m p b1 b2 h
    have hd := congrArg String.data h
    simp only [Client.getAuthenticationString, String.data_append, List.append_assoc, e1,
      List.cons_append, List.nil_append,
      List.append_cancel_left_eq, List.cons.injEq, true_and] at hd
    exact String.ext hd

/-- C9 witness: the injectivity clause applied to concrete newline-free
methods and paths. -/
theorem c9_canonical_sensitivity_witness :
    ("GET" : String) = "GET" ∧ ("/kernel/abc" : String) = "/kernel/abc"
      ∧ Client.bodyHashHex idCrypto exCfg "b" = Client.bodyHashHex idCrypto exCfg "b" :=
  (c9_canonical_sensitivity idCrypto exCfg).1 "ts" "application/json"
    "GET" "GET" "/kernel/abc" "/kernel/abc" "b" "b"
    (by decide) (by decide) (by decide) (by decide) rfl

/-- C10: whether the serialized body participates in the signed canonical
string is decided by the single character at index 1 of the stored
protocol version string — it participates exactly when that character is
a digit below 4; under the built-in default version `v4.20190315`, and
under any constructed configuration (whose default version that is), the
canonical string hashes the empty string instead of the body. -/
theorem c10_version_char_threshold (C : Crypto) (cfg : ClientConfig) (m qs iso b ct : String) :
    (∀ c : Char, cfg.apiVersion.data[1]? = some c → c.isDigit = true → c.toNat - 48 < 4 →
      Client.signedCanonical C cfg m qs iso b ct
        = Client.getAuthenticationString C cfg m qs iso b ct)
    ∧ (∀ c : Char, cfg.apiVersion.data[1]? = some c → c.isDigit = true → 4 ≤ c.toNat - 48 →
      Client.signedCanonical C cfg m qs iso b ct
        = Client.getAuthenticationString C cfg m qs iso "" ct)
    ∧ (cfg.apiVersion = "v4.20190315" →
      Client.signedCanonical C cfg m qs iso b ct
        = Client.getAuthenticationString C cfg m qs iso "" ct)
    ∧ (∀ (ak sk : String) (ep : Option String) (mode : String) (cfg2 : ClientConfig),
        ClientConfig.make (some ak) (some sk) ep mode = Except.ok cfg2 →
        versionCharLtFour cfg2.apiVersion = false) := by
  refine ⟨fun c h1 h2 h3 => ?_, fun c h1 h2 h3 => ?_, fun hv => ?_, fun ak sk ep mode cfg2 h => ?_⟩
  · have hv : versionCharLtFour cfg.apiVersion = true := by
      simp [versionCharLtFour, h1, jsNumOfChar, h2, h3]
    simp [Client.signedCanonical, hv]
  · have hv : versionCharLtFour cfg.apiVersion = false := by
      simp only [versionCharLtFour, h1, jsNumOfChar, h2, if_true, decide_eq_false_iff_not]
      omega
    simp [Client.signedCanonical, hv]
  · have hlt : versionCharLtFour cfg.apiVersion = false := by rw [hv]; decide
    simp [Client.signedCanonical, hlt]
  · simp only [ClientConfig.make, Except.ok.injEq] at h
    have hv : cfg2.apiVersion = "v4.20190315" := by rw [← h]
    rw [hv]
    decide

/-- C10 witness: under the default version string the signed canonical
string hashes the empty string, not the supplied body. -/
theorem c10_version_char_threshold_witness :
    Client.signedCanonical idCrypto exCfg "GET" "/kernel/abc" "2019-01-01T00:00:00.000Z"
        "somebody" "application/json"
      = Client.getAuthenticationString idCrypto exCfg "GET" "/kernel/abc"
          "2019-01-01T00:00:00.000Z" "" "application/json" :=
  (c10_version_char_threshold idCrypto exCfg "GET" "/kernel/abc" "2019-01-01T00:00:00.000Z"
      "somebody" "application/json").2.2.1 rfl

end BackendAI
